import Mathlib

set_option maxHeartbeats 1000000

namespace Council

/-!
Shallow embedding of the Council multi-agent hub (Python).

Python `dict`s with string keys are modelled as association lists
(`List (String × α)`) with Python's insertion semantics: assigning to an
existing key updates the value in place (keeping its position); assigning
to a fresh key appends it at the end.  JSON payload values are modelled by
`JVal`; floats that appear in the code are exact small rationals, modelled
by `ℚ`.
-/

/-- JSON-like payload values exchanged between agents and the store. -/
inductive JVal where
  | str : String → JVal
  | num : ℚ → JVal
  | arr : List JVal → JVal
  | obj : List (String × JVal) → JVal

/-- Python `d.get(k)` on a string-keyed dict. -/
def lookupA {α : Type} (k : String) : List (String × α) → Option α
  | [] => none
  | (k', v) :: rest => if k' = k then some v else lookupA k rest

/-- Python `d[k] = v`: update in place if the key exists, else append. -/
def insertA {α : Type} (k : String) (v : α) : List (String × α) → List (String × α)
  | [] => [(k, v)]
  | (k', v') :: rest => if k' = k then (k, v) :: rest else (k', v') :: insertA k v rest

/-- Python `del d[k]` (all occurrences; keys are unique in actual states). -/
def removeA {α : Type} (k : String) : List (String × α) → List (String × α)
  | [] => []
  | (k', v) :: rest => if k' = k then removeA k rest else (k', v) :: removeA k rest

/-- The keys of an association list, in order. -/
def keysA {α : Type} (l : List (String × α)) : List String :=
  l.map Prod.fst

theorem lookupA_nil {α : Type} (k : String) : lookupA (α := α) k [] = none := rfl

theorem lookupA_insertA_self {α : Type} (k : String) (v : α) (l : List (String × α)) :
    lookupA k (insertA k v l) = some v := by
  induction l with
  | nil => simp [insertA, lookupA]
  | cons p rest ih =>
    obtain ⟨k', v'⟩ := p
    by_cases h : k' = k
    · simp [insertA, h, lookupA]
    · simp [insertA, h, lookupA, ih]

theorem lookupA_insertA_ne {α : Type} (k k' : String) (v : α) (l : List (String × α))
    (h : k ≠ k') : lookupA k' (insertA k v l) = lookupA k' l := by
  induction l with
  | nil => simp [insertA, lookupA, h]
  | cons p rest ih =>
    obtain ⟨k₀, v₀⟩ := p
    by_cases h0 : k₀ = k
    · subst h0
      simp [insertA, lookupA, h]
    · by_cases h1 : k₀ = k'
      · subst h1
        simp [insertA, h0, lookupA]
      · simp [insertA, h0, lookupA, h1, ih]

theorem insertA_of_lookupA_none {α : Type} (k : String) (v : α) (l : List (String × α))
    (h : lookupA k l = none) : insertA k v l = l ++ [(k, v)] := by
  induction l with
  | nil => simp [insertA]
  | cons p rest ih =>
    obtain ⟨k', v'⟩ := p
    by_cases h0 : k' = k
    · simp [lookupA, h0] at h
    · simp [lookupA, h0] at h
      simp [insertA, h0, ih h]

theorem length_insertA {α : Type} (k : String) (v : α) (l : List (String × α)) :
    (insertA k v l).length = if (lookupA k l).isSome then l.length else l.length + 1 := by
  induction l with
  | nil => simp [insertA, lookupA]
  | cons p rest ih =>
    obtain ⟨k', v'⟩ := p
    by_cases h0 : k' = k
    · simp [insertA, h0, lookupA]
    · simp only [insertA, h0, if_false, lookupA, List.length_cons, ih]
      by_cases h1 : (lookupA k rest).isSome <;> simp [h0, h1]

theorem insertA_insertA_same {α : Type} (k : String) (v₁ v₂ : α) (l : List (String × α)) :
    insertA k v₂ (insertA k v₁ l) = insertA k v₂ l := by
  induction l with
  | nil => simp [insertA]
  | cons p rest ih =>
    obtain ⟨k', v'⟩ := p
    by_cases h0 : k' = k
    · simp [insertA, h0]
    · simp [insertA, h0, ih]

theorem keysA_insertA {α : Type} (k : String) (v : α) (l : List (String × α)) :
    keysA (insertA k v l) = if (lookupA k l).isSome then keysA l else keysA l ++ [k] := by
  induction l with
  | nil => simp [insertA, keysA, lookupA]
  | cons p rest ih =>
    obtain ⟨k', v'⟩ := p
    by_cases h0 : k' = k
    · simp [insertA, h0, keysA, lookupA]
    · by_cases h1 : (lookupA k rest).isSome
      · simp [insertA, h0, keysA, lookupA, h1] at ih ⊢
        exact ih
      · simp [insertA, h0, keysA, lookupA, h1] at ih ⊢
        exact ih

theorem lookupA_append_left {α : Type} (k : String) (l₁ l₂ : List (String × α))
    (h : (lookupA k l₁).isSome) : lookupA k (l₁ ++ l₂) = lookupA k l₁ := by
  induction l₁ with
  | nil => simp [lookupA] at h
  | cons p rest ih =>
    obtain ⟨k', v'⟩ := p
    by_cases h0 : k' = k
    · simp [lookupA, h0]
    · simp only [lookupA, h0, if_false] at h ⊢
      exact ih h

theorem lookupA_append_right {α : Type} (k : String) (l₁ l₂ : List (String × α))
    (h : lookupA k l₁ = none) : lookupA k (l₁ ++ l₂) = lookupA k l₂ := by
  induction l₁ with
  | nil => simp
  | cons p rest ih =>
    obtain ⟨k', v'⟩ := p
    by_cases h0 : k' = k
    · simp [lookupA, h0] at h
    · simp only [lookupA, h0, if_false] at h ⊢
      exact ih h

theorem lookupA_eq_none_of_not_mem_keysA {α : Type} (k : String) (l : List (String × α))
    (h : k ∉ keysA l) : lookupA k l = none := by
  induction l with
  | nil => rfl
  | cons p rest ih =>
    obtain ⟨k', v'⟩ := p
    simp only [keysA, List.map_cons, List.mem_cons] at h
    push_neg at h
    simp only [lookupA]
    rw [if_neg (fun hh => h.1 hh.symm)]
    exact ih (by simpa [keysA] using h.2)

theorem lookupA_removeA_self {α : Type} (k : String) (l : List (String × α)) :
    lookupA k (removeA k l) = none := by
  induction l with
  | nil => rfl
  | cons p rest ih =>
    obtain ⟨k', v'⟩ := p
    by_cases h0 : k' = k
    · simpa [removeA, h0] using ih
    · simpa [removeA, h0, lookupA] using ih

theorem lookupA_removeA_ne {α : Type} (k k' : String) (l : List (String × α))
    (h : k ≠ k') : lookupA k' (removeA k l) = lookupA k' l := by
  induction l with
  | nil => rfl
  | cons p rest ih =>
    obtain ⟨k₀, v₀⟩ := p
    by_cases h0 : k₀ = k
    · subst h0
      have h1 : ¬ (k₀ = k') := fun hh => h hh
      simp [removeA, lookupA, h1, ih]
    · by_cases h1 : k₀ = k'
      · subst h1
        simp [removeA, h0, lookupA]
      · simp [removeA, lookupA, h0, h1, ih]

/-!
## Aggregation pipeline (`src/agents/agent_manager.py`, `AgentManager.process_question`)

The accumulated `result` dict is the structure `PipelineResult`; the roster is
the (insertion-ordered) list of agents of the manager's `self.agents` dict, so
its ids are pairwise distinct in every actual run.  An agent's four
`generate_*` coroutines are modelled as functions returning `Except String`;
`.error e` models the call raising an exception whose message is `e`.
-/

/-- The evolving `result` dictionary of `AgentManager.process_question`. -/
structure PipelineResult where
  question : String
  responses : List (String × JVal)
  critiques : List (String × List (String × JVal))
  research : List (String × JVal)
  conclusions : List (String × JVal)

/-- An agent of the roster: id and display name plus the four stage calls. -/
structure Agent where
  agent_id : String
  agent_name : String
  respond : String → Except String JVal
  critique : String → String → JVal → Except String JVal
  research : String → Except String JVal
  conclude : String → PipelineResult → Except String JVal

/-- Placeholder stored when `generate_response` raises (manager lines 143-149). -/
def errorResponsePayload (e name : String) : JVal :=
  .obj [("content", .str ("Error: " ++ e)), ("confidence", .num 0),
        ("agent_name", .str name)]

/-- Placeholder stored when `generate_critique` raises (manager lines 166-178). -/
def errorCritiquePayload (e name target : String) : JVal :=
  .obj [("target_agent", .str target), ("critique", .str ("Error: " ++ e)),
        ("agreement_level", .num (1/2)),
        ("key_points", .arr [.str ("Error occurred: " ++ e)]),
        ("agent_name", .str name)]

/-- Placeholder stored when `generate_research` raises (manager lines 186-193). -/
def errorResearchPayload (e name : String) : JVal :=
  .obj [("findings", .str ("Error: " ++ e)), ("sources", .arr []),
        ("confidence", .num 0), ("agent_name", .str name)]

/-- Placeholder stored when `generate_conclusion` raises (manager lines 201-209). -/
def errorConclusionPayload (e name : String) : JVal :=
  .obj [("summary", .str ("Error: " ++ e)),
        ("key_takeaways", .arr [.str ("Error occurred: " ++ e)]),
        ("confidence", .num 0), ("final_position", .str "neutral"),
        ("agent_name", .str name)]

/-- Step 1 body: the payload stored for one agent's response. -/
def responseFor (a : Agent) (q : String) : JVal :=
  match a.respond q with
  | .ok p => p
  | .error e => errorResponsePayload e a.agent_name

/-- Step 1: `for agent_id, agent in self.agents.items(): ...`. -/
def respondLoop (q : String) : List Agent → List (String × JVal) → List (String × JVal)
  | [], acc => acc
  | a :: rest, acc => respondLoop q rest (insertA a.agent_id (responseFor a q) acc)

/-- Two-level write `critiques[agent_id][target_id] = v`, creating the inner
dict when `agent_id not in critiques` (manager lines 162-165 / 169-172). -/
def insert2 (k₁ k₂ : String) (v : JVal) (m : List (String × List (String × JVal))) :
    List (String × List (String × JVal)) :=
  insertA k₁ (insertA k₂ v ((lookupA k₁ m).getD [])) m

/-- Two-level read from a critiques map. -/
def lookup2 (k₁ k₂ : String) (m : List (String × List (String × JVal))) : Option JVal :=
  (lookupA k₁ m).bind (lookupA k₂)

/-- Step 2 body: the payload stored for one (critic, target) pair. -/
def critiqueFor (a : Agent) (q target : String) (tresp : JVal) : JVal :=
  match a.critique q target tresp with
  | .ok p => p
  | .error e => errorCritiquePayload e a.agent_name target

/-- Step 2 inner loop: `for target_id, target_response in result["responses"].items()`,
skipping the self pair. -/
def critiqueInnerLoop (a : Agent) (q : String) :
    List (String × JVal) → List (String × List (String × JVal)) →
      List (String × List (String × JVal))
  | [], acc => acc
  | (tid, tresp) :: rest, acc =>
      critiqueInnerLoop a q rest
        (if a.agent_id ≠ tid then insert2 a.agent_id tid (critiqueFor a q tid tresp) acc
         else acc)

/-- Step 2 outer loop over the roster. -/
def critiqueLoop (q : String) (resps : List (String × JVal)) :
    List Agent → List (String × List (String × JVal)) → List (String × List (String × JVal))
  | [], acc => acc
  | a :: rest, acc => critiqueLoop q resps rest (critiqueInnerLoop a q resps acc)

/-- Step 3 body: the payload stored for one agent's research. -/
def researchFor (a : Agent) (q : String) : JVal :=
  match a.research q with
  | .ok p => p
  | .error e => errorResearchPayload e a.agent_name

/-- Step 3: research loop over the roster. -/
def researchLoop (q : String) : List Agent → List (String × JVal) → List (String × JVal)
  | [], acc => acc
  | a :: rest, acc => researchLoop q rest (insertA a.agent_id (researchFor a q) acc)

/-- Step 4 body: `await agent.generate_conclusion(question, result)` — note the
whole current `result` (conclusions included) is what the agent receives. -/
def conclusionFor (a : Agent) (r : PipelineResult) : JVal :=
  match a.conclude r.question r with
  | .ok p => p
  | .error e => errorConclusionPayload e a.agent_name

/-- One iteration of step 4: store the agent's conclusion into `result`. -/
def addConclusion (a : Agent) (r : PipelineResult) : PipelineResult :=
  { r with conclusions := insertA a.agent_id (conclusionFor a r) r.conclusions }

/-- Step 4 loop over the roster, threading the mutable `result`. -/
def conclusionLoop : List Agent → PipelineResult → PipelineResult
  | [], r => r
  | a :: rest, r => conclusionLoop rest (addConclusion a r)

/-- Observation of step 4: the context actually passed to each agent's
`generate_conclusion` call, in processing order. -/
def conclusionContexts : List Agent → PipelineResult → List (String × PipelineResult)
  | [], _ => []
  | a :: rest, r => (a.agent_id, r) :: conclusionContexts rest (addConclusion a r)

/-- The `result` value just before step 4 (steps 1-3 of `process_question`). -/
def preConclusion (roster : List Agent) (q : String) : PipelineResult :=
  let r0 : PipelineResult := ⟨q, [], [], [], []⟩
  let r1 := { r0 with responses := respondLoop q roster [] }
  let r2 := { r1 with critiques := critiqueLoop q r1.responses roster [] }
  { r2 with research := researchLoop q roster [] }

/-- `AgentManager.process_question`: the four sequential stage loops. -/
def process_question (roster : List Agent) (q : String) : PipelineResult :=
  conclusionLoop roster (preConclusion roster q)

/-- The contexts seen by the conclusion calls during a full pipeline run. -/
def pipelineConclusionContexts (roster : List Agent) (q : String) :
    List (String × PipelineResult) :=
  conclusionContexts roster (preConclusion roster q)

theorem conclusionLoop_question (roster : List Agent) (r : PipelineResult) :
    (conclusionLoop roster r).question = r.question := by
  induction roster generalizing r with
  | nil => rfl
  | cons a rest ih => simp [conclusionLoop, ih, addConclusion]

theorem conclusionLoop_responses (roster : List Agent) (r : PipelineResult) :
    (conclusionLoop roster r).responses = r.responses := by
  induction roster generalizing r with
  | nil => rfl
  | cons a rest ih => simp [conclusionLoop, ih, addConclusion]

theorem conclusionLoop_critiques (roster : List Agent) (r : PipelineResult) :
    (conclusionLoop roster r).critiques = r.critiques := by
  induction roster generalizing r with
  | nil => rfl
  | cons a rest ih => simp [conclusionLoop, ih, addConclusion]

theorem conclusionLoop_research (roster : List Agent) (r : PipelineResult) :
    (conclusionLoop roster r).research = r.research := by
  induction roster generalizing r with
  | nil => rfl
  | cons a rest ih => simp [conclusionLoop, ih, addConclusion]

theorem conclusionContexts_getElem? (roster : List Agent) (r : PipelineResult) (i : ℕ) :
    (conclusionContexts roster r)[i]? =
      roster[i]?.map (fun a => (a.agent_id, conclusionLoop (List.take i roster) r)) := by
  induction roster generalizing r i with
  | nil => simp [conclusionContexts]
  | cons a rest ih =>
    cases i with
    | zero => simp [conclusionContexts, conclusionLoop]
    | succ j => simp [conclusionContexts, conclusionLoop, ih]

theorem preConclusion_question (roster : List Agent) (q : String) :
    (preConclusion roster q).question = q := rfl

theorem preConclusion_conclusions (roster : List Agent) (q : String) :
    (preConclusion roster q).conclusions = [] := rfl

/-- A deterministic test agent whose calls always succeed. -/
def constAgent (id name : String) : Agent :=
  { agent_id := id, agent_name := name,
    respond := fun _ => .ok (.str ("resp-" ++ id)),
    critique := fun _ t _ => .ok (.str ("crit-" ++ id ++ "-" ++ t)),
    research := fun _ => .ok (.str ("res-" ++ id)),
    conclude := fun _ _ => .ok (.str ("conc-" ++ id)) }

/-- A two-agent roster as produced by `_initialize_mock_agents` (truncated). -/
def twoAgentRoster : List Agent :=
  [constAgent "agent-gpt" "GPT Assistant", constAgent "agent-claude" "Claude AI"]

/-- C1 counterexample: in the two-agent run, the context handed to the second
agent's `generate_conclusion` call already contains the first agent's
conclusion, so the conclusion-stage contexts are neither all equal to the
pre-conclusion snapshot nor free of other agents' conclusions. -/
theorem conclusion_context_not_conclusion_free :
    ¬ ∀ p ∈ pipelineConclusionContexts twoAgentRoster "What is X?",
        p.2.conclusions = [] := by
  intro h
  have hmem : (("agent-claude" : String),
      addConclusion (constAgent "agent-gpt" "GPT Assistant")
        (preConclusion twoAgentRoster "What is X?")) ∈
      pipelineConclusionContexts twoAgentRoster "What is X?" :=
    List.mem_cons_of_mem _ (List.mem_cons_self _ _)
  have h2 := h _ hmem
  have h3 : (addConclusion (constAgent "agent-gpt" "GPT Assistant")
      (preConclusion twoAgentRoster "What is X?")).conclusions =
      [("agent-gpt",
        conclusionFor (constAgent "agent-gpt" "GPT Assistant")
          (preConclusion twoAgentRoster "What is X?"))] := rfl
  rw [h3] at h2
  exact List.cons_ne_nil _ _ h2

/-- C1 (amended): the context passed to the `i`-th conclusion call is the
accumulated structure — the same question, responses, critiques and research
as the snapshot after steps 1-3 — but its conclusions map holds exactly the
conclusions of the `i` previously processed agents; only the first call sees
an empty conclusions map. -/
theorem conclusion_context_snapshot (roster : List Agent) (q : String) (i : ℕ) :
    (pipelineConclusionContexts roster q)[i]? =
      roster[i]?.map
        (fun a => (a.agent_id, conclusionLoop (List.take i roster) (preConclusion roster q)))
    ∧ (conclusionLoop (List.take i roster) (preConclusion roster q)).question = q
    ∧ (conclusionLoop (List.take i roster) (preConclusion roster q)).responses =
        (preConclusion roster q).responses
    ∧ (conclusionLoop (List.take i roster) (preConclusion roster q)).critiques =
        (preConclusion roster q).critiques
    ∧ (conclusionLoop (List.take i roster) (preConclusion roster q)).research =
        (preConclusion roster q).research
    ∧ conclusionLoop (List.take 0 roster) (preConclusion roster q) = preConclusion roster q
    ∧ (preConclusion roster q).conclusions = [] := by
  refine ⟨conclusionContexts_getElem? roster (preConclusion roster q) i, ?_, ?_, ?_, ?_, rfl, rfl⟩
  · rw [conclusionLoop_question, preConclusion_question]
  · exact conclusionLoop_responses _ _
  · exact conclusionLoop_critiques _ _
  · exact conclusionLoop_research _ _

/-!
## Shape of the critique stage (C2) and the response stage (C4)
-/

theorem insertA_append_last {α : Type} (k : String) (v w : α) (acc : List (String × α))
    (h : lookupA k acc = none) :
    insertA k v (acc ++ [(k, w)]) = acc ++ [(k, v)] := by
  induction acc with
  | nil => simp [insertA]
  | cons p rest ih =>
    obtain ⟨k', v'⟩ := p
    by_cases h0 : k' = k
    · simp [lookupA, h0] at h
    · simp only [lookupA, h0, if_false] at h
      simp [insertA, h0, ih h]

/-- The inner dict accumulated for one critiquing agent over the responses. -/
def critiqueRowFor (a : Agent) (q : String) :
    List (String × JVal) → List (String × JVal) → List (String × JVal)
  | [], inner => inner
  | (tid, tresp) :: rest, inner =>
      critiqueRowFor a q rest
        (if a.agent_id ≠ tid then insertA tid (critiqueFor a q tid tresp) inner else inner)

/-- The same row built by appending (no key of `resps` repeats in actual runs). -/
def critiqueRowSpec (a : Agent) (q : String) : List (String × JVal) → List (String × JVal)
  | [] => []
  | (tid, tresp) :: rest =>
      (if a.agent_id ≠ tid then [(tid, critiqueFor a q tid tresp)] else [])
        ++ critiqueRowSpec a q rest

theorem critiqueRowFor_eq_spec (a : Agent) (q : String) (resps : List (String × JVal))
    (inner : List (String × JVal))
    (hdis : ∀ p ∈ resps, lookupA p.1 inner = none)
    (hnd : (resps.map Prod.fst).Nodup) :
    critiqueRowFor a q resps inner = inner ++ critiqueRowSpec a q resps := by
  induction resps generalizing inner with
  | nil => simp [critiqueRowFor, critiqueRowSpec]
  | cons p rest ih =>
    obtain ⟨tid, tresp⟩ := p
    simp only [List.map_cons, List.nodup_cons] at hnd
    by_cases hs : a.agent_id ≠ tid
    · simp only [critiqueRowFor, critiqueRowSpec, if_pos hs]
      have hfresh : lookupA tid inner = none := hdis (tid, tresp) (List.mem_cons_self _ _)
      rw [insertA_of_lookupA_none _ _ _ hfresh]
      rw [ih (inner ++ [(tid, critiqueFor a q tid tresp)]) ?_ hnd.2]
      · simp
      · intro p hp
        have hne : ¬ (tid = p.1) := by
          intro hh
          exact hnd.1 (hh ▸ (List.mem_map_of_mem Prod.fst hp))
        rw [lookupA_append_right _ _ _ (hdis p (List.mem_cons_of_mem _ hp))]
        simp [lookupA, hne]
    · simp only [critiqueRowFor, critiqueRowSpec, if_neg hs]
      exact ih inner (fun p hp => hdis p (List.mem_cons_of_mem _ hp)) hnd.2

theorem critiqueRowFor_nil_ne_nil (a : Agent) (q : String) (resps : List (String × JVal))
    (inner : List (String × JVal)) (h : inner ≠ []) :
    critiqueRowFor a q resps inner ≠ [] := by
  induction resps generalizing inner with
  | nil => exact h
  | cons p rest ih =>
    obtain ⟨tid, tresp⟩ := p
    by_cases hs : a.agent_id ≠ tid
    · simp only [critiqueRowFor, if_pos hs]
      refine ih _ ?_
      cases inner with
      | nil => simp [insertA]
      | cons p' rest' =>
        obtain ⟨k', v'⟩ := p'
        by_cases h0 : k' = tid <;> simp [insertA, h0]
    · simp only [critiqueRowFor, if_neg hs]
      exact ih inner h

/-- With the critic's outer key placed last, the inner loop only grows that row. -/
theorem critiqueInnerLoop_last (a : Agent) (q : String) (resps : List (String × JVal))
    (acc : List (String × List (String × JVal))) (inner : List (String × JVal))
    (h : lookupA a.agent_id acc = none) :
    critiqueInnerLoop a q resps (acc ++ [(a.agent_id, inner)]) =
      acc ++ [(a.agent_id, critiqueRowFor a q resps inner)] := by
  induction resps generalizing inner with
  | nil => simp [critiqueInnerLoop, critiqueRowFor]
  | cons p rest ih =>
    obtain ⟨tid, tresp⟩ := p
    by_cases hs : a.agent_id ≠ tid
    · simp only [critiqueInnerLoop, critiqueRowFor, if_pos hs]
      have hlook : lookupA a.agent_id (acc ++ [(a.agent_id, inner)]) = some inner := by
        rw [lookupA_append_right _ _ _ h]
        simp [lookupA]
      rw [insert2, hlook]
      simp only [Option.getD_some]
      rw [insertA_append_last _ _ _ _ h]
      exact ih _
    · simp only [critiqueInnerLoop, critiqueRowFor, if_neg hs]
      exact ih inner

/-- With a fresh outer key, the inner loop appends exactly the critic's row
(or nothing, when no non-self target exists). -/
theorem critiqueInnerLoop_fresh (a : Agent) (q : String) (resps : List (String × JVal))
    (acc : List (String × List (String × JVal)))
    (h : lookupA a.agent_id acc = none) :
    critiqueInnerLoop a q resps acc =
      if (critiqueRowFor a q resps []).isEmpty then acc
      else acc ++ [(a.agent_id, critiqueRowFor a q resps [])] := by
  induction resps with
  | nil => simp [critiqueInnerLoop, critiqueRowFor]
  | cons p rest ih =>
    obtain ⟨tid, tresp⟩ := p
    by_cases hs : a.agent_id ≠ tid
    · simp only [critiqueInnerLoop, critiqueRowFor, if_pos hs]
      rw [insert2, h]
      simp only [Option.getD_none]
      rw [insertA_of_lookupA_none _ _ _ h]
      rw [critiqueInnerLoop_last a q rest acc _ h]
      have hne : ¬ (critiqueRowFor a q rest (insertA tid (critiqueFor a q tid tresp) [])).isEmpty := by
        simp only [List.isEmpty_iff]
        exact critiqueRowFor_nil_ne_nil a q rest _ (by simp [insertA])
      rw [if_neg hne]
    · simp only [critiqueInnerLoop, critiqueRowFor, if_neg hs]
      exact ih

/-- The critiques map produced by the critique stage, row by row. -/
def critiqueRows (q : String) (resps : List (String × JVal)) :
    List Agent → List (String × List (String × JVal))
  | [] => []
  | a :: rest =>
      (if (critiqueRowFor a q resps []).isEmpty then []
       else [(a.agent_id, critiqueRowFor a q resps [])]) ++ critiqueRows q resps rest

theorem critiqueLoop_eq_rows (q : String) (resps : List (String × JVal))
    (roster : List Agent) (acc : List (String × List (String × JVal)))
    (hnd : (roster.map Agent.agent_id).Nodup)
    (hdis : ∀ a ∈ roster, lookupA a.agent_id acc = none) :
    critiqueLoop q resps roster acc = acc ++ critiqueRows q resps roster := by
  induction roster generalizing acc with
  | nil => simp [critiqueLoop, critiqueRows]
  | cons a rest ih =>
    simp only [List.map_cons, List.nodup_cons] at hnd
    simp only [critiqueLoop, critiqueRows]
    rw [critiqueInnerLoop_fresh a q resps acc (hdis a (List.mem_cons_self _ _))]
    by_cases hrow : (critiqueRowFor a q resps []).isEmpty
    · rw [if_pos hrow, if_pos hrow]
      simp only [List.nil_append]
      exact ih _ hnd.2 (fun b hb => hdis b (List.mem_cons_of_mem _ hb))
    · rw [if_neg hrow, if_neg hrow]
      rw [ih _ hnd.2 ?_]
      · simp
      · intro b hb
        rw [lookupA_append_right _ _ _ (hdis b (List.mem_cons_of_mem _ hb))]
        have hbne : ¬ (a.agent_id = b.agent_id) := by
          intro hh
          exact hnd.1 (hh ▸ (List.mem_map_of_mem Agent.agent_id hb))
        simp [lookupA, hbne]


theorem critiqueRowSpec_length_not_mem (a : Agent) (q : String)
    (resps : List (String × JVal)) (h : a.agent_id ∉ resps.map Prod.fst) :
    (critiqueRowSpec a q resps).length = resps.length := by
  induction resps with
  | nil => rfl
  | cons p rest ih =>
    obtain ⟨tid, tresp⟩ := p
    simp only [List.map_cons, List.mem_cons] at h
    push_neg at h
    simp [critiqueRowSpec, if_pos h.1, ih h.2]

theorem critiqueRowSpec_length_mem (a : Agent) (q : String)
    (resps : List (String × JVal)) (hnd : (resps.map Prod.fst).Nodup)
    (h : a.agent_id ∈ resps.map Prod.fst) :
    (critiqueRowSpec a q resps).length + 1 = resps.length := by
  induction resps with
  | nil => simp at h
  | cons p rest ih =>
    obtain ⟨tid, tresp⟩ := p
    simp only [List.map_cons, List.nodup_cons] at hnd
    simp only [List.map_cons, List.mem_cons] at h
    by_cases hs : a.agent_id = tid
    · have hnotin : a.agent_id ∉ rest.map Prod.fst := hs ▸ hnd.1
      have hlen := critiqueRowSpec_length_not_mem a q rest hnotin
      simp [critiqueRowSpec, hs, hlen]
    · rcases h with h | h
      · exact absurd h hs
      · have := ih hnd.2 h
        simp only [critiqueRowSpec, if_pos hs, List.singleton_append, List.length_cons]
        omega

/-- Total number of leaf entries of a two-level critiques map. -/
def leafCount (m : List (String × List (String × JVal))) : ℕ :=
  (m.map (fun p => p.2.length)).sum

theorem leafCount_critiqueRows (q : String) (resps : List (String × JVal))
    (roster : List Agent) (K : ℕ)
    (h : ∀ a ∈ roster, (critiqueRowFor a q resps []).length = K) :
    leafCount (critiqueRows q resps roster) = roster.length * K := by
  induction roster with
  | nil => simp [critiqueRows, leafCount]
  | cons a rest ih =>
    have ha := h a (List.mem_cons_self _ _)
    have ihr := ih (fun b hb => h b (List.mem_cons_of_mem _ hb))
    by_cases hrow : (critiqueRowFor a q resps []).isEmpty
    · have h0 : K = 0 := by
        rw [← ha, List.isEmpty_iff.mp hrow]
        rfl
      subst h0
      simp only [critiqueRows, if_pos hrow, List.nil_append]
      rw [ihr]
      ring
    · simp only [critiqueRows, if_neg hrow, List.singleton_append, leafCount,
        List.map_cons, List.sum_cons]
      simp only [leafCount] at ihr
      rw [ha, ihr]
      simp only [List.length_cons]
      ring

theorem respondLoop_eq_map (q : String) (roster : List Agent) (acc : List (String × JVal))
    (hnd : (roster.map Agent.agent_id).Nodup)
    (hdis : ∀ a ∈ roster, lookupA a.agent_id acc = none) :
    respondLoop q roster acc = acc ++ roster.map (fun a => (a.agent_id, responseFor a q)) := by
  induction roster generalizing acc with
  | nil => simp [respondLoop]
  | cons a rest ih =>
    simp only [List.map_cons, List.nodup_cons] at hnd
    simp only [respondLoop]
    rw [insertA_of_lookupA_none _ _ _ (hdis a (List.mem_cons_self _ _))]
    rw [ih _ hnd.2 ?_]
    · simp
    · intro b hb
      rw [lookupA_append_right _ _ _ (hdis b (List.mem_cons_of_mem _ hb))]
      have hbne : ¬ (a.agent_id = b.agent_id) :=
        fun hh => hnd.1 (hh ▸ List.mem_map_of_mem Agent.agent_id hb)
      simp [lookupA, hbne]

theorem lookupA_critiqueRowFor_isSome (a : Agent) (q : String)
    (resps : List (String × JVal)) (inner : List (String × JVal)) (y : String) :
    (lookupA y (critiqueRowFor a q resps inner)).isSome ↔
      ((y ∈ resps.map Prod.fst ∧ a.agent_id ≠ y) ∨ (lookupA y inner).isSome) := by
  induction resps generalizing inner with
  | nil => simp [critiqueRowFor]
  | cons p rest ih =>
    obtain ⟨tid, tresp⟩ := p
    by_cases hs : a.agent_id ≠ tid
    · simp only [critiqueRowFor, if_pos hs, List.map_cons]
      rw [ih]
      by_cases hy : tid = y
      · subst hy
        simp [lookupA_insertA_self, hs]
      · rw [lookupA_insertA_ne _ _ _ _ hy]
        have hy2 : ¬ (y = tid) := fun hh => hy hh.symm
        simp only [List.mem_cons, hy2, false_or]
    · push_neg at hs
      subst hs
      simp only [critiqueRowFor, ne_eq, not_true_eq_false, if_false, List.map_cons]
      rw [ih]
      constructor
      · rintro (⟨hmem, hne⟩ | hin)
        · exact Or.inl ⟨List.mem_cons_of_mem _ hmem, hne⟩
        · exact Or.inr hin
      · rintro (⟨hmem, hne⟩ | hin)
        · rcases List.mem_cons.mp hmem with hmem | hmem
          · exact absurd hmem.symm hne
          · exact Or.inl ⟨hmem, hne⟩
        · exact Or.inr hin

theorem lookup2_cons (k : String) (row : List (String × JVal))
    (m : List (String × List (String × JVal))) (x y : String) :
    lookup2 x y ((k, row) :: m) = if k = x then lookupA y row else lookup2 x y m := by
  by_cases h : k = x <;> simp [lookup2, lookupA, h]

theorem lookup2_critiqueRows_isSome (q : String) (resps : List (String × JVal))
    (roster : List Agent) (x y : String) :
    (lookup2 x y (critiqueRows q resps roster)).isSome ↔
      (x ∈ roster.map Agent.agent_id ∧ y ∈ resps.map Prod.fst ∧ x ≠ y) := by
  induction roster with
  | nil => simp [critiqueRows, lookup2, lookupA]
  | cons a rest ih =>
    simp only [critiqueRows, List.map_cons]
    by_cases hrow : (critiqueRowFor a q resps []).isEmpty
    · rw [if_pos hrow]
      simp only [List.nil_append]
      rw [ih]
      have hnone : ∀ z, ¬ (z ∈ resps.map Prod.fst ∧ a.agent_id ≠ z) := by
        intro z hz
        have hiso := (lookupA_critiqueRowFor_isSome a q resps [] z).mpr (Or.inl hz)
        rw [List.isEmpty_iff.mp hrow] at hiso
        simp [lookupA] at hiso
      constructor
      · rintro ⟨hx, hy, hxy⟩
        exact ⟨List.mem_cons_of_mem _ hx, hy, hxy⟩
      · rintro ⟨hx, hy, hxy⟩
        rcases List.mem_cons.mp hx with hx | hx
        · exact absurd ⟨hy, by rw [hx] at hxy; exact hxy⟩ (hnone y)
        · exact ⟨hx, hy, hxy⟩
    · rw [if_neg hrow]
      simp only [List.singleton_append, lookup2_cons]
      by_cases hx : a.agent_id = x
      · rw [if_pos hx]
        rw [lookupA_critiqueRowFor_isSome a q resps [] y]
        subst hx
        constructor
        · rintro (⟨hy, hne⟩ | hin)
          · exact ⟨List.mem_cons_self _ _, hy, hne⟩
          · simp [lookupA] at hin
        · rintro ⟨hx2, hy, hne⟩
          exact Or.inl ⟨hy, hne⟩
      · rw [if_neg hx]
        rw [ih]
        constructor
        · rintro ⟨hxr, hy, hne⟩
          exact ⟨List.mem_cons_of_mem _ hxr, hy, hne⟩
        · rintro ⟨hxr, hy, hne⟩
          rcases List.mem_cons.mp hxr with hxr | hxr
          · exact absurd hxr.symm hx
          · exact ⟨hxr, hy, hne⟩


/-- C2: with pairwise-distinct agent ids (as in the manager's `self.agents`
dict), the critique stage of a full pipeline run has exactly N×(N-1) leaf
entries, keyed critic-then-target, one per ordered pair of distinct ids and
none on the diagonal; a single-agent roster yields an empty critiques map. -/
theorem critique_stage_pairs (roster : List Agent) (q : String)
    (hnd : (roster.map Agent.agent_id).Nodup) :
    (2 ≤ roster.length →
      leafCount (process_question roster q).critiques =
          roster.length * (roster.length - 1)
        ∧ (∀ x y, (lookup2 x y (process_question roster q).critiques).isSome ↔
            (x ∈ roster.map Agent.agent_id ∧ y ∈ roster.map Agent.agent_id ∧ x ≠ y))
        ∧ (∀ x, lookup2 x x (process_question roster q).critiques = none))
    ∧ (roster.length = 1 → (process_question roster q).critiques = []) := by
  have hresps : respondLoop q roster [] =
      roster.map (fun a => (a.agent_id, responseFor a q)) := by
    simpa using respondLoop_eq_map q roster [] hnd (fun a _ => rfl)
  have hkeys : (respondLoop q roster []).map Prod.fst = roster.map Agent.agent_id := by
    rw [hresps, List.map_map]
    rfl
  have hcrit : (process_question roster q).critiques =
      critiqueRows q (respondLoop q roster []) roster := by
    rw [process_question, conclusionLoop_critiques]
    show critiqueLoop q (respondLoop q roster []) roster [] = _
    rw [critiqueLoop_eq_rows q _ roster [] hnd (fun a _ => rfl)]
    simp
  have hrowlen : ∀ a ∈ roster,
      (critiqueRowFor a q (respondLoop q roster []) []).length = roster.length - 1 := by
    intro a ha
    rw [critiqueRowFor_eq_spec a q _ [] (fun p _ => rfl) (by rw [hkeys]; exact hnd)]
    simp only [List.nil_append]
    have hmem : a.agent_id ∈ (respondLoop q roster []).map Prod.fst := by
      rw [hkeys]
      exact List.mem_map_of_mem _ ha
    have hspec := critiqueRowSpec_length_mem a q _ (by rw [hkeys]; exact hnd) hmem
    have hlenresps : (respondLoop q roster []).length = roster.length := by
      rw [hresps]
      simp
    omega
  refine ⟨fun _ => ⟨?_, ?_, ?_⟩, fun h1 => ?_⟩
  · rw [hcrit]
    exact leafCount_critiqueRows q _ roster _ hrowlen
  · intro x y
    rw [hcrit, lookup2_critiqueRows_isSome, hkeys]
  · intro x
    rw [hcrit, ← Option.not_isSome_iff_eq_none]
    intro hs
    exact ((lookup2_critiqueRows_isSome q _ roster x x).mp hs).2.2 rfl
  · obtain ⟨a, rfl⟩ := List.length_eq_one.mp h1
    have hr : respondLoop q [a] [] = [(a.agent_id, responseFor a q)] := by
      simpa using hresps
    have hrow : critiqueRowFor a q (respondLoop q [a] []) [] = [] := by
      rw [hr]
      simp [critiqueRowFor]
    rw [hcrit]
    simp [critiqueRows, hrow]

/-- Concrete instantiation of `critique_stage_pairs` at the two-agent roster. -/
theorem critique_stage_pairs_witness :
    (twoAgentRoster.map Agent.agent_id).Nodup ∧
    ((2 ≤ twoAgentRoster.length →
      leafCount (process_question twoAgentRoster "What is X?").critiques =
          twoAgentRoster.length * (twoAgentRoster.length - 1)
        ∧ (∀ x y,
            (lookup2 x y (process_question twoAgentRoster "What is X?").critiques).isSome ↔
            (x ∈ twoAgentRoster.map Agent.agent_id ∧
              y ∈ twoAgentRoster.map Agent.agent_id ∧ x ≠ y))
        ∧ (∀ x, lookup2 x x (process_question twoAgentRoster "What is X?").critiques = none))
    ∧ (twoAgentRoster.length = 1 →
        (process_question twoAgentRoster "What is X?").critiques = [])) :=
  ⟨by decide, critique_stage_pairs twoAgentRoster "What is X?" (by decide)⟩


theorem lookupA_map_agent (roster : List Agent) (f : Agent → JVal) (a : Agent)
    (hnd : (roster.map Agent.agent_id).Nodup) (ha : a ∈ roster) :
    lookupA a.agent_id (roster.map (fun b => (b.agent_id, f b))) = some (f a) := by
  induction roster with
  | nil => simp at ha
  | cons b rest ih =>
    simp only [List.map_cons, List.nodup_cons] at hnd
    rcases List.mem_cons.mp ha with rfl | ha2
    · simp [lookupA]
    · have hne : ¬ (b.agent_id = a.agent_id) :=
        fun hh => hnd.1 (hh ▸ List.mem_map_of_mem Agent.agent_id ha2)
      simp [lookupA, hne, ih hnd.2 ha2]

/-- Reading one field of a JSON object payload. -/
def jfield (key : String) : JVal → Option JVal
  | .obj fields => lookupA key fields
  | _ => none

/-- C4: if one agent's `generate_response` raises while every other agent's
succeeds, the pipeline still completes and its responses map holds an entry
for every roster agent — the real payload for the others and, for the failing
agent, the placeholder with confidence 0.0 and the error message embedded in
`content`. -/
theorem respond_failure_degrades (roster : List Agent) (q : String) (f : Agent)
    (e : String) (hnd : (roster.map Agent.agent_id).Nodup)
    (hf : f ∈ roster) (hfe : f.respond q = .error e)
    (hok : ∀ a ∈ roster, a ≠ f → ∃ p, a.respond q = .ok p) :
    ∀ a ∈ roster, ∃ p,
      lookupA a.agent_id (process_question roster q).responses = some p
      ∧ (a = f → p = errorResponsePayload e f.agent_name
          ∧ jfield "confidence" p = some (.num 0)
          ∧ jfield "content" p = some (.str ("Error: " ++ e)))
      ∧ (a ≠ f → a.respond q = .ok p) := by
  intro a ha
  have hrespeq : (process_question roster q).responses = respondLoop q roster [] := by
    rw [process_question, conclusionLoop_responses]
    rfl
  have hmap := respondLoop_eq_map q roster [] hnd (fun b _ => rfl)
  refine ⟨responseFor a q, ?_, ?_, ?_⟩
  · rw [hrespeq, hmap]
    simpa using lookupA_map_agent roster (fun b => responseFor b q) a hnd ha
  · rintro rfl
    have herr : responseFor a q = errorResponsePayload e a.agent_name := by
      simp [responseFor, hfe]
    exact ⟨herr, by rw [herr]; rfl, by rw [herr]; rfl⟩
  · intro hne
    obtain ⟨p, hp⟩ := hok a ha hne
    have hpe : responseFor a q = p := by
      simp [responseFor, hp]
    rw [hpe]
    exact hp

/-- A test agent whose `generate_response` always raises. -/
def failRespondAgent : Agent :=
  { agent_id := "agent-claude", agent_name := "Claude AI",
    respond := fun _ => .error "boom",
    critique := fun _ t _ => .ok (.str ("crit-" ++ t)),
    research := fun _ => .ok (.str "res"),
    conclude := fun _ _ => .ok (.str "conc") }

/-- A roster where exactly the second agent's respond call fails. -/
def mixedRoster : List Agent := [constAgent "agent-gpt" "GPT Assistant", failRespondAgent]

/-- Concrete instantiation of `respond_failure_degrades` on `mixedRoster`. -/
theorem respond_failure_degrades_witness :
    (mixedRoster.map Agent.agent_id).Nodup
    ∧ failRespondAgent ∈ mixedRoster
    ∧ failRespondAgent.respond "What is X?" = .error "boom"
    ∧ (∀ a ∈ mixedRoster, a ≠ failRespondAgent → ∃ p, a.respond "What is X?" = .ok p)
    ∧ ∀ a ∈ mixedRoster, ∃ p,
        lookupA a.agent_id (process_question mixedRoster "What is X?").responses = some p
        ∧ (a = failRespondAgent →
            p = errorResponsePayload "boom" failRespondAgent.agent_name
            ∧ jfield "confidence" p = some (.num 0)
            ∧ jfield "content" p = some (.str ("Error: " ++ "boom")))
        ∧ (a ≠ failRespondAgent → a.respond "What is X?" = .ok p) := by
  have hok : ∀ a ∈ mixedRoster, a ≠ failRespondAgent →
      ∃ p, a.respond "What is X?" = .ok p := by
    intro a ha hne
    rcases List.mem_cons.mp ha with rfl | ha2
    · exact ⟨_, rfl⟩
    · rcases List.mem_cons.mp ha2 with rfl | ha3
      · exact absurd rfl hne
      · simp at ha3
  exact ⟨by decide, List.mem_cons_of_mem _ (List.mem_cons_self _ _), rfl, hok,
    respond_failure_degrades mixedRoster "What is X?" failRespondAgent "boom" (by decide)
      (List.mem_cons_of_mem _ (List.mem_cons_self _ _)) rfl hok⟩


/-!
## Persistent store and HTTP routes (`src/flask_app.py`, `src/models.py`,
`src/agents/routes.py`)

The `questions` table is an association list from question id to question
text; the `contexts` table is a list of rows.  Each route handler becomes a
function from the store to a result; an early `return jsonify(error), 4xx`
becomes an `Except` error (nothing was committed at that point, so the store
is unchanged).  Timestamps and rendered messages are not modelled.
-/

/-- A row of the `contexts` table (`models.py`, class `Context`).  The four
stage maps are JSON dicts from agent id to a payload value. -/
structure ContextRec where
  id : String
  question_id : String
  responses : List (String × JVal)
  critiques : List (String × JVal)
  research : List (String × JVal)
  conclusions : List (String × JVal)

/-- The persistent store: the `questions` and `contexts` tables. -/
structure DB where
  questions : List (String × String)
  contexts : List ContextRec

/-- `Context.query.filter_by(question_id=...).first()`. -/
def findContext (qid : String) : List ContextRec → Option ContextRec
  | [] => none
  | c :: rest => if c.question_id = qid then some c else findContext qid rest

/-- Mutating the first context row matching a question id. -/
def updateContext (qid : String) (f : ContextRec → ContextRec) :
    List ContextRec → List ContextRec
  | [] => []
  | c :: rest => if c.question_id = qid then f c :: rest else c :: updateContext qid f rest

/-- Cascade delete of the contexts owned by a question
(`cascade="all, delete-orphan"` on `Question.context`). -/
def removeContexts (qid : String) : List ContextRec → List ContextRec
  | [] => []
  | c :: rest =>
      if c.question_id = qid then removeContexts qid rest else c :: removeContexts qid rest

/-- `POST /question` (`create_question`): add the question row and its empty
context row, committed together. -/
def create_question (s : DB) (question_text question_id context_id : String) : DB :=
  { questions := s.questions ++ [(question_id, question_text)],
    contexts := s.contexts ++ [⟨context_id, question_id, [], [], [], []⟩] }

/-- `DELETE /question/<id>` (`delete_question`): 404 when the question row is
absent, otherwise delete it and cascade to its context in one commit. -/
def delete_question (s : DB) (question_id : String) : Except String DB :=
  if (lookupA question_id s.questions).isSome then
    .ok { questions := removeA question_id s.questions,
          contexts := removeContexts question_id s.contexts }
  else .error "Question not found"

/-- The rejection outcomes of `submit_agent_response`. -/
inductive SubmitError where
  | notFound
  | invalidInput
  | invalidStage
deriving DecidableEq

/-- The parsed JSON body of a `POST /submit/<question_id>` request. -/
structure Submission where
  agent_id : String
  agent_name : Option String
  stage : String
  payload : List (String × JVal)

/-- `if agent_name: payload["agent_name"] = agent_name` (an empty string is
falsy in Python, so it is not attached). -/
def payloadWithName (sub : Submission) : List (String × JVal) :=
  match sub.agent_name with
  | some n => if n = "" then sub.payload else insertA "agent_name" (.str n) sub.payload
  | none => sub.payload

/-- The stage dispatch of `submit_agent_response` (flask_app.py lines 89-107):
every recognized stage writes one single-level entry `map[agent_id] = payload`
— including `critique`; an unknown stage writes nothing. -/
def writeStage (c : ContextRec) (stage agent_id : String)
    (payload : List (String × JVal)) : Option ContextRec :=
  if stage = "response" then
    some { c with responses := insertA agent_id (.obj payload) c.responses }
  else if stage = "critique" then
    some { c with critiques := insertA agent_id (.obj payload) c.critiques }
  else if stage = "research" then
    some { c with research := insertA agent_id (.obj payload) c.research }
  else if stage = "conclusion" then
    some { c with conclusions := insertA agent_id (.obj payload) c.conclusions }
  else none

/-- `POST /submit/<question_id>` (`submit_agent_response`): look up the
context, parse the body, dispatch on the stage name, then commit. -/
def submit_agent_response (s : DB) (question_id : String) (body : Option Submission) :
    Except SubmitError DB :=
  match findContext question_id s.contexts with
  | none => .error .notFound
  | some c =>
    match body with
    | none => .error .invalidInput
    | some sub =>
      match writeStage c sub.stage sub.agent_id (payloadWithName sub) with
      | none => .error .invalidStage
      | some cNew =>
          .ok { s with contexts := updateContext question_id (fun _ => cNew) s.contexts }


/-- C5: `submit_agent_response` rejects an unknown question id with NotFound
and an unrecognized stage with InvalidStage, committing nothing in either
case, and for an existing question and a recognized stage it succeeds,
writing exactly one entry into exactly the named stage map. -/
theorem submit_stage_contract (s : DB) (qid : String) (body : Option Submission) :
    (findContext qid s.contexts = none →
        submit_agent_response s qid body = .error .notFound)
    ∧ (∀ c sub, findContext qid s.contexts = some c → body = some sub →
        sub.stage ∉ (["response", "critique", "research", "conclusion"] : List String) →
        submit_agent_response s qid body = .error .invalidStage)
    ∧ (∀ c sub, findContext qid s.contexts = some c → body = some sub →
        sub.stage ∈ (["response", "critique", "research", "conclusion"] : List String) →
        ∃ cNew, writeStage c sub.stage sub.agent_id (payloadWithName sub) = some cNew
          ∧ submit_agent_response s qid body =
              .ok { s with contexts := updateContext qid (fun _ => cNew) s.contexts }
          ∧ cNew.question_id = c.question_id
          ∧ (sub.stage = "response" → cNew = { c with responses := insertA sub.agent_id (.obj (payloadWithName sub)) c.responses })
          ∧ (sub.stage = "critique" → cNew = { c with critiques := insertA sub.agent_id (.obj (payloadWithName sub)) c.critiques })
          ∧ (sub.stage = "research" → cNew = { c with research := insertA sub.agent_id (.obj (payloadWithName sub)) c.research })
          ∧ (sub.stage = "conclusion" → cNew = { c with conclusions := insertA sub.agent_id (.obj (payloadWithName sub)) c.conclusions })) := by
  refine ⟨?_, ?_, ?_⟩
  · intro h
    simp [submit_agent_response, h]
  · intro c sub hc hb hstage
    simp only [List.mem_cons, List.not_mem_nil, or_false, not_or] at hstage
    obtain ⟨h1, h2, h3, h4⟩ := hstage
    simp [submit_agent_response, hc, hb, writeStage, h1, h2, h3, h4]
  · intro c sub hc hb hstage
    simp only [List.mem_cons, List.not_mem_nil, or_false] at hstage
    rcases hstage with h1 | h1 | h1 | h1
    · have hw : writeStage c sub.stage sub.agent_id (payloadWithName sub) =
          some { c with responses := insertA sub.agent_id (.obj (payloadWithName sub)) c.responses } := by
        rw [h1]
        rfl
      refine ⟨_, hw, ?_, rfl, fun _ => rfl, ?_, ?_, ?_⟩
      · simp [submit_agent_response, hc, hb, hw]
      all_goals intro h2; exact absurd (h1.symm.trans h2) (by decide)
    · have hw : writeStage c sub.stage sub.agent_id (payloadWithName sub) =
          some { c with critiques := insertA sub.agent_id (.obj (payloadWithName sub)) c.critiques } := by
        rw [h1]
        rfl
      refine ⟨_, hw, ?_, rfl, ?_, fun _ => rfl, ?_, ?_⟩
      · simp [submit_agent_response, hc, hb, hw]
      all_goals intro h2; exact absurd (h1.symm.trans h2) (by decide)
    · have hw : writeStage c sub.stage sub.agent_id (payloadWithName sub) =
          some { c with research := insertA sub.agent_id (.obj (payloadWithName sub)) c.research } := by
        rw [h1]
        rfl
      refine ⟨_, hw, ?_, rfl, ?_, ?_, fun _ => rfl, ?_⟩
      · simp [submit_agent_response, hc, hb, hw]
      all_goals intro h2; exact absurd (h1.symm.trans h2) (by decide)
    · have hw : writeStage c sub.stage sub.agent_id (payloadWithName sub) =
          some { c with conclusions := insertA sub.agent_id (.obj (payloadWithName sub)) c.conclusions } := by
        rw [h1]
        rfl
      refine ⟨_, hw, ?_, rfl, ?_, ?_, ?_, fun _ => rfl⟩
      · simp [submit_agent_response, hc, hb, hw]
      all_goals intro h2; exact absurd (h1.symm.trans h2) (by decide)

/-- The single context row used in concrete store scenarios. -/
def ctxOne : ContextRec := ⟨"c1", "q1", [], [], [], []⟩

/-- A store holding one question and its empty context. -/
def dbOne : DB := { questions := [("q1", "What is X?")], contexts := [ctxOne] }

/-- An empty store. -/
def dbEmpty : DB := { questions := [], contexts := [] }

/-- A well-formed response-stage submission. -/
def subResp : Submission :=
  { agent_id := "agent-gpt", agent_name := some "GPT Assistant", stage := "response",
    payload := [("content", .str "hi"), ("confidence", .num (4/5))] }

/-- Concrete instantiation of the success branch of `submit_stage_contract`. -/
theorem submit_stage_contract_witness :
    ∃ cNew, writeStage ctxOne subResp.stage subResp.agent_id (payloadWithName subResp) =
        some cNew
      ∧ submit_agent_response dbOne "q1" (some subResp) =
          .ok { dbOne with contexts := updateContext "q1" (fun _ => cNew) dbOne.contexts }
      ∧ cNew.question_id = ctxOne.question_id
      ∧ (subResp.stage = "response" → cNew = { ctxOne with responses := insertA subResp.agent_id (.obj (payloadWithName subResp)) ctxOne.responses })
      ∧ (subResp.stage = "critique" → cNew = { ctxOne with critiques := insertA subResp.agent_id (.obj (payloadWithName subResp)) ctxOne.critiques })
      ∧ (subResp.stage = "research" → cNew = { ctxOne with research := insertA subResp.agent_id (.obj (payloadWithName subResp)) ctxOne.research })
      ∧ (subResp.stage = "conclusion" → cNew = { ctxOne with conclusions := insertA subResp.agent_id (.obj (payloadWithName subResp)) ctxOne.conclusions }) :=
  (submit_stage_contract dbOne "q1" (some subResp)).2.2 ctxOne subResp rfl rfl (by decide)

/-- C10: the question-existence check runs before the stage check — an
unknown question id yields NotFound for every body (even one with an
unrecognized stage), and an existing question with an absent body yields
InvalidInput; no stage map is written in either case. -/
theorem submit_question_check_first (s : DB) (qid : String) :
    (findContext qid s.contexts = none →
        ∀ body, submit_agent_response s qid body = .error .notFound)
    ∧ (∀ c, findContext qid s.contexts = some c →
        submit_agent_response s qid none = .error .invalidInput) := by
  constructor
  · intro h body
    simp [submit_agent_response, h]
  · intro c hc
    simp [submit_agent_response, hc]

/-- A submission naming an unrecognized stage. -/
def subBadStage : Submission :=
  { agent_id := "agent-x", agent_name := none, stage := "bogus", payload := [] }

/-- Concrete instantiation of `submit_question_check_first`. -/
theorem submit_question_check_first_witness :
    submit_agent_response dbEmpty "q1" (some subBadStage) = .error .notFound
    ∧ submit_agent_response dbOne "q1" none = .error .invalidInput :=
  ⟨(submit_question_check_first dbEmpty "q1").1 rfl (some subBadStage),
   (submit_question_check_first dbOne "q1").2 ctxOne rfl⟩


/-- Two-level read (critiquing agent, then target agent) from a stored
critiques JSON dict, as the spec describes critique keying. -/
def lookup2J (k1 k2 : String) (m : List (String × JVal)) : Option JVal :=
  match lookupA k1 m with
  | some (.obj row) => lookupA k2 row
  | _ => none

/-- A critique submission by `agent-a` against the given target. -/
def critSub (target : String) : Submission :=
  { agent_id := "agent-a", agent_name := none, stage := "critique",
    payload := [("target_agent", .str target), ("critique", .str ("about-" ++ target))] }

/-- Submitting two critiques by the same agent against two different targets. -/
def twoCritiqueSubmits : Except SubmitError DB :=
  (submit_agent_response dbOne "q1" (some (critSub "t1"))).bind
    (fun s1 => submit_agent_response s1 "q1" (some (critSub "t2")))

/-- C3 counterexample: after `agent-a` submits critiques against the two
targets `t1` and `t2`, the stored critiques map holds only the second payload
under the single key `agent-a`; the `t1` critique is gone, so the store does
not keep both under two-level keying. -/
theorem submit_critique_not_two_level :
    ∃ s c, twoCritiqueSubmits = .ok s
      ∧ findContext "q1" s.contexts = some c
      ∧ c.critiques =
          [("agent-a", .obj [("target_agent", .str "t2"), ("critique", .str "about-t2")])]
      ∧ lookup2J "agent-a" "t1" c.critiques = none :=
  ⟨_, _, rfl, rfl, rfl, rfl⟩

theorem findContext_some_qid (qid : String) (l : List ContextRec) (c : ContextRec)
    (h : findContext qid l = some c) : c.question_id = qid := by
  induction l with
  | nil => simp [findContext] at h
  | cons c0 rest ih =>
    by_cases h0 : c0.question_id = qid
    · simp only [findContext, h0, if_true, Option.some.injEq] at h
      rw [← h]
      exact h0
    · simp only [findContext, h0, if_false] at h
      exact ih h

theorem findContext_updateContext (qid : String) (cNew : ContextRec)
    (l : List ContextRec) (hq : cNew.question_id = qid) (c : ContextRec)
    (h : findContext qid l = some c) :
    findContext qid (updateContext qid (fun _ => cNew) l) = some cNew := by
  induction l with
  | nil => simp [findContext] at h
  | cons c0 rest ih =>
    by_cases h0 : c0.question_id = qid
    · simp [updateContext, h0, findContext, hq]
    · simp only [findContext, h0, if_false] at h
      simp only [updateContext, h0, if_false, findContext]
      exact ih h

/-- A context row with its critiques map replaced. -/
def withCritiques (c : ContextRec) (m : List (String × JVal)) : ContextRec :=
  { c with critiques := m }

/-- C3 (amended): the direct submission route stores critiques under
single-level keying — `critiques[agent_id] = payload` — so two successive
critique submissions by the same agent (against any two targets) leave only
the second payload in the map, exactly as if the first had never been
written. -/
theorem submit_critique_single_level (s : DB) (qid : String) (subA subB : Submission)
    (c : ContextRec) (hc : findContext qid s.contexts = some c)
    (h1 : subA.stage = "critique") (h2 : subB.stage = "critique")
    (hid : subB.agent_id = subA.agent_id) :
    ∃ s1 s2, submit_agent_response s qid (some subA) = .ok s1
      ∧ submit_agent_response s1 qid (some subB) = .ok s2
      ∧ ∃ c2, findContext qid s2.contexts = some c2
        ∧ c2.critiques = insertA subA.agent_id (.obj (payloadWithName subB)) c.critiques
        ∧ c2.responses = c.responses
        ∧ c2.research = c.research
        ∧ c2.conclusions = c.conclusions := by
  have hcq := findContext_some_qid qid s.contexts c hc
  have hw1 : writeStage c subA.stage subA.agent_id (payloadWithName subA) =
      some (withCritiques c (insertA subA.agent_id (.obj (payloadWithName subA)) c.critiques)) := by
    rw [h1]
    rfl
  have hs1 : submit_agent_response s qid (some subA) =
      .ok ⟨s.questions,
        updateContext qid
          (fun _ => withCritiques c (insertA subA.agent_id (.obj (payloadWithName subA)) c.critiques))
          s.contexts⟩ := by
    simp [submit_agent_response, hc, hw1]
  have hfc1 : findContext qid
      (updateContext qid
        (fun _ => withCritiques c (insertA subA.agent_id (.obj (payloadWithName subA)) c.critiques))
        s.contexts) =
      some (withCritiques c (insertA subA.agent_id (.obj (payloadWithName subA)) c.critiques)) :=
    findContext_updateContext qid _ s.contexts hcq c hc
  have hw2 : writeStage
      (withCritiques c (insertA subA.agent_id (.obj (payloadWithName subA)) c.critiques))
      subB.stage subB.agent_id (payloadWithName subB) =
      some (withCritiques c (insertA subB.agent_id (.obj (payloadWithName subB))
        (insertA subA.agent_id (.obj (payloadWithName subA)) c.critiques))) := by
    rw [h2]
    rfl
  refine ⟨_, ⟨s.questions,
      updateContext qid
        (fun _ => withCritiques c (insertA subB.agent_id (.obj (payloadWithName subB))
          (insertA subA.agent_id (.obj (payloadWithName subA)) c.critiques)))
        (updateContext qid
          (fun _ => withCritiques c (insertA subA.agent_id (.obj (payloadWithName subA)) c.critiques))
          s.contexts)⟩, hs1, ?_, ?_⟩
  · simp [submit_agent_response, hfc1, hw2]
  · refine ⟨_, findContext_updateContext qid _ _ hcq _ hfc1, ?_, rfl, rfl, rfl⟩
    show insertA subB.agent_id (.obj (payloadWithName subB))
        (insertA subA.agent_id (.obj (payloadWithName subA)) c.critiques) =
      insertA subA.agent_id (.obj (payloadWithName subB)) c.critiques
    rw [hid, insertA_insertA_same]

/-- Concrete instantiation of `submit_critique_single_level` on `dbOne`. -/
theorem submit_critique_single_level_witness :
    ∃ s1 s2, submit_agent_response dbOne "q1" (some (critSub "t1")) = .ok s1
      ∧ submit_agent_response s1 "q1" (some (critSub "t2")) = .ok s2
      ∧ ∃ c2, findContext "q1" s2.contexts = some c2
        ∧ c2.critiques =
            insertA (critSub "t1").agent_id (.obj (payloadWithName (critSub "t2")))
              ctxOne.critiques
        ∧ c2.responses = ctxOne.responses
        ∧ c2.research = ctxOne.research
        ∧ c2.conclusions = ctxOne.conclusions :=
  submit_critique_single_level dbOne "q1" (critSub "t1") (critSub "t2") ctxOne rfl rfl rfl rfl


/-!
## Question registry invariant (C6)
-/

theorem lookupA_append_isSome {α : Type} (k : String) (l1 l2 : List (String × α)) :
    (lookupA k (l1 ++ l2)).isSome = ((lookupA k l1).isSome || (lookupA k l2).isSome) := by
  induction l1 with
  | nil => simp [lookupA]
  | cons p rest ih =>
    obtain ⟨k0, v0⟩ := p
    by_cases h0 : k0 = k
    · simp [lookupA, h0]
    · simp [lookupA, h0, ih]

theorem findContext_append_isSome (qid : String) (l1 l2 : List ContextRec) :
    (findContext qid (l1 ++ l2)).isSome =
      ((findContext qid l1).isSome || (findContext qid l2).isSome) := by
  induction l1 with
  | nil => simp [findContext]
  | cons c0 rest ih =>
    by_cases h0 : c0.question_id = qid
    · simp [findContext, h0]
    · simp [findContext, h0, ih]

theorem findContext_removeContexts_self (qid : String) (l : List ContextRec) :
    findContext qid (removeContexts qid l) = none := by
  induction l with
  | nil => rfl
  | cons c0 rest ih =>
    by_cases h0 : c0.question_id = qid
    · simpa [removeContexts, h0] using ih
    · simpa [removeContexts, h0, findContext] using ih

theorem findContext_removeContexts_ne (qid q2 : String) (l : List ContextRec)
    (h : qid ≠ q2) : findContext q2 (removeContexts qid l) = findContext q2 l := by
  induction l with
  | nil => rfl
  | cons c0 rest ih =>
    by_cases h0 : c0.question_id = qid
    · have h1 : ¬ (c0.question_id = q2) := fun hh => h (h0.symm.trans hh)
      simp [removeContexts, h0, findContext, h1, h, ih]
    · by_cases h1 : c0.question_id = q2
      · have h2 : ¬ (q2 = qid) := fun hh => h hh.symm
        simp [removeContexts, h0, findContext, h1, h2]
      · simp [removeContexts, h0, findContext, h1, ih]

theorem writeStage_question_id (c : ContextRec) (stage aid : String)
    (p : List (String × JVal)) (cNew : ContextRec)
    (h : writeStage c stage aid p = some cNew) : cNew.question_id = c.question_id := by
  unfold writeStage at h
  split_ifs at h <;> simp only [Option.some.injEq] at h <;> rw [← h]

theorem findContext_updateContext_isSome (qid q2 : String) (cNew : ContextRec)
    (hq : cNew.question_id = qid) (l : List ContextRec) :
    (findContext q2 (updateContext qid (fun _ => cNew) l)).isSome =
      (findContext q2 l).isSome := by
  induction l with
  | nil => rfl
  | cons c0 rest ih =>
    by_cases h0 : c0.question_id = qid
    · by_cases h1 : c0.question_id = q2
      · have h4 : cNew.question_id = q2 := hq.trans (h0 ▸ h1)
        have h5 : qid = q2 := h0.symm.trans h1
        simp [updateContext, h0, findContext, h1, h4, h5]
      · have h2 : ¬ (cNew.question_id = q2) := by
          rw [hq, ← h0]
          exact h1
        have h3 : ¬ (qid = q2) := fun hh => h1 (h0.trans hh)
        simp [updateContext, h0, findContext, h1, h2, h3]
    · simp only [updateContext, h0, if_false, findContext]
      by_cases h1 : c0.question_id = q2 <;> simp [h1, ih]

/-- The registry invariant: a context row exists for a question id exactly
when the question row does. -/
def RegistryInv (s : DB) : Prop :=
  ∀ qid, (lookupA qid s.questions).isSome ↔ (findContext qid s.contexts).isSome

/-- C6: question creation adds the question together with its empty context
in one commit, deletion removes the question and cascades to its contexts in
one commit, and direct stage submission only mutates an existing context —
each operation preserves the exists-iff invariant. -/
theorem registry_invariant_preserved (s : DB) (hInv : RegistryInv s)
    (qt qid cid : String) (dqid : String) (sqid : String) :
    RegistryInv (create_question s qt qid cid)
    ∧ (∀ s2, delete_question s dqid = .ok s2 → RegistryInv s2)
    ∧ (∀ body s2, submit_agent_response s sqid body = .ok s2 → RegistryInv s2) := by
  refine ⟨?_, ?_, ?_⟩
  · intro q2
    simp only [create_question, lookupA_append_isSome, findContext_append_isSome]
    have hone : (lookupA q2 [(qid, qt)]).isSome =
        (findContext q2 [(⟨cid, qid, [], [], [], []⟩ : ContextRec)]).isSome := by
      by_cases h : qid = q2 <;> simp [lookupA, findContext, h]
    rw [hone]
    by_cases h2 : (findContext q2 [(⟨cid, qid, [], [], [], []⟩ : ContextRec)]).isSome
    · simp [h2]
    · simp only [h2, Bool.or_false]
      exact hInv q2
  · intro s2 hdel
    unfold delete_question at hdel
    split_ifs at hdel with hex
    · simp only [Except.ok.injEq] at hdel
      subst hdel
      intro q2
      by_cases h : dqid = q2
      · subst h
        simp [lookupA_removeA_self, findContext_removeContexts_self]
      · simp only [lookupA_removeA_ne dqid q2 _ h, findContext_removeContexts_ne dqid q2 _ h]
        exact hInv q2
  · intro body s2 hsub
    unfold submit_agent_response at hsub
    split at hsub
    · cases hsub
    · rename_i c hc
      split at hsub
      · cases hsub
      · rename_i sub hbody
        split at hsub
        · cases hsub
        · rename_i cNew hw
          simp only [Except.ok.injEq] at hsub
          subst hsub
          intro q2
          have hqidNew : cNew.question_id = sqid :=
            (writeStage_question_id c _ _ _ _ hw).trans (findContext_some_qid sqid s.contexts c hc)
          simp only [findContext_updateContext_isSome sqid q2 cNew hqidNew s.contexts]
          exact hInv q2

/-- Concrete instantiation of `registry_invariant_preserved` on the empty
store. -/
theorem registry_invariant_preserved_witness :
    RegistryInv (create_question dbEmpty "What is X?" "q1" "c1")
    ∧ (∀ s2, delete_question dbEmpty "q1" = .ok s2 → RegistryInv s2)
    ∧ (∀ body s2, submit_agent_response dbEmpty "q1" body = .ok s2 → RegistryInv s2) :=
  registry_invariant_preserved dbEmpty
    (fun qid => by simp [dbEmpty, lookupA, findContext]) "What is X?" "q1" "c1" "q1" "q1"


/-!
## Poll status (`src/agents/routes.py`, `check_processing_status`)

The handler initializes `progress = 0` and then overrides it in order for
each non-empty stage map, so the final value is decided by the last
non-empty map in the fixed order — written below as nested conditionals
from the last check backwards.
-/

/-- The `progress` value computed by `check_processing_status`. -/
def progressOf (c : ContextRec) : ℕ :=
  if 0 < c.conclusions.length then 100
  else if 0 < c.research.length then 75
  else if 0 < c.critiques.length then 50
  else if 0 < c.responses.length then 25
  else 0

/-- The `status` string computed by `check_processing_status`. -/
def statusOf (c : ContextRec) : String :=
  if 0 < c.conclusions.length then "complete"
  else if 0 < c.research.length then "research_ready"
  else if 0 < c.critiques.length then "critiques_ready"
  else if 0 < c.responses.length then "responses_ready"
  else "pending"

/-- `GET /api/real-agents/status/<question_id>`: 404 when the question or
its context row is missing, else the derived status and progress. -/
def check_processing_status (s : DB) (qid : String) : Except String (String × ℕ) :=
  match lookupA qid s.questions with
  | none => .error "Question not found"
  | some _ =>
    match findContext qid s.contexts with
    | none => .error "Context not found"
    | some c => .ok (statusOf c, progressOf c)

/-- During a run the stage maps are only ever populated, never cleared:
each non-empty map stays non-empty. -/
def ContextGrows (c c2 : ContextRec) : Prop :=
  (0 < c.responses.length → 0 < c2.responses.length)
  ∧ (0 < c.critiques.length → 0 < c2.critiques.length)
  ∧ (0 < c.research.length → 0 < c2.research.length)
  ∧ (0 < c.conclusions.length → 0 < c2.conclusions.length)

/-- C7: for an existing question with a context, polling returns the derived
progress, that progress is always one of 0/25/50/75/100, and it can only
grow as the stage maps get populated (so repeated polls over one run are
non-decreasing). -/
theorem poll_status_progress (s : DB) (qid qt : String) (c : ContextRec)
    (hq : lookupA qid s.questions = some qt) (hc : findContext qid s.contexts = some c) :
    check_processing_status s qid = .ok (statusOf c, progressOf c)
    ∧ progressOf c ∈ ([0, 25, 50, 75, 100] : List ℕ)
    ∧ (∀ c2, ContextGrows c c2 → progressOf c ≤ progressOf c2) := by
  refine ⟨by simp [check_processing_status, hq, hc], ?_, ?_⟩
  · unfold progressOf
    split_ifs <;> simp
  · intro c2 hg
    obtain ⟨g1, g2, g3, g4⟩ := hg
    unfold progressOf
    by_cases k4 : 0 < c.conclusions.length
    · simp [k4, g4 k4]
    · by_cases k3 : 0 < c.research.length
      · have m3 := g3 k3
        simp only [k4, if_false, k3, if_true, m3]
        by_cases m4 : 0 < c2.conclusions.length <;> simp [m4, m3]
      · by_cases k2 : 0 < c.critiques.length
        · have m2 := g2 k2
          simp only [k4, if_false, k3, if_false, k2, if_true]
          by_cases m4 : 0 < c2.conclusions.length
          · simp [m4]
          · by_cases m3 : 0 < c2.research.length <;> simp [m4, m3, m2]
        · by_cases k1 : 0 < c.responses.length
          · have m1 := g1 k1
            simp only [k4, if_false, k3, if_false, k2, if_false, k1, if_true]
            by_cases m4 : 0 < c2.conclusions.length
            · simp [m4]
            · by_cases m3 : 0 < c2.research.length
              · simp [m4, m3]
              · by_cases m2 : 0 < c2.critiques.length <;> simp [m4, m3, m2, m1]
          · simp only [k4, if_false, k3, if_false, k2, if_false, k1, if_false]
            omega

/-- Concrete instantiation of `poll_status_progress` on `dbOne`. -/
theorem poll_status_progress_witness :
    check_processing_status dbOne "q1" = .ok (statusOf ctxOne, progressOf ctxOne)
    ∧ progressOf ctxOne ∈ ([0, 25, 50, 75, 100] : List ℕ)
    ∧ (∀ c2, ContextGrows ctxOne c2 → progressOf ctxOne ≤ progressOf c2) :=
  poll_status_progress dbOne "q1" "What is X?" ctxOne rfl rfl


/-!
## Pipeline entry point (`src/agents/real_agent_runner.py`,
`process_question_with_agents`)
-/

/-- The JSON result dict of a completed `process_question` run. -/
def resultToDict (r : PipelineResult) : List (String × JVal) :=
  [("question", .str r.question),
   ("responses", .obj r.responses),
   ("critiques", .obj (r.critiques.map (fun p => (p.1, JVal.obj p.2)))),
   ("research", .obj r.research),
   ("conclusions", .obj r.conclusions)]

/-- `process_question_with_agents`: with no available agents it returns the
`{"error": ..., "question": ...}` dict instead of running the pipeline. -/
def process_question_with_agents (roster : List Agent) (q : String) :
    List (String × JVal) :=
  if roster.isEmpty then
    [("error", .str "No agents available"), ("question", .str q)]
  else resultToDict (process_question roster q)

/-- C8 counterexample: the "no agents available" result is only the error
marker and the question — it does not carry the four stage-map keys at all,
empty or otherwise. -/
theorem no_agents_result_lacks_stage_maps :
    process_question_with_agents [] "What is X?" =
      [("error", .str "No agents available"), ("question", .str "What is X?")]
    ∧ lookupA "responses" (process_question_with_agents [] "What is X?") = none
    ∧ lookupA "critiques" (process_question_with_agents [] "What is X?") = none
    ∧ lookupA "research" (process_question_with_agents [] "What is X?") = none
    ∧ lookupA "conclusions" (process_question_with_agents [] "What is X?") = none :=
  ⟨rfl, rfl, rfl, rfl, rfl⟩

/-- C8 (amended): with an empty roster the pipeline entry point returns a
structured result (never an exception) consisting of exactly the
"No agents available" error marker and the question; the four stage-map
keys are absent from it. -/
theorem no_agents_result_shape (q : String) :
    process_question_with_agents [] q =
      [("error", .str "No agents available"), ("question", .str q)]
    ∧ lookupA "question" (process_question_with_agents [] q) = some (.str q)
    ∧ lookupA "error" (process_question_with_agents [] q) =
        some (.str "No agents available")
    ∧ lookupA "responses" (process_question_with_agents [] q) = none
    ∧ lookupA "critiques" (process_question_with_agents [] q) = none
    ∧ lookupA "research" (process_question_with_agents [] q) = none
    ∧ lookupA "conclusions" (process_question_with_agents [] q) = none :=
  ⟨rfl, rfl, rfl, rfl, rfl, rfl, rfl⟩


/-!
## Conclusion payload shapes (`src/agents/gpt_agent.py`,
`src/agents/grok_agent.py`, `src/agent_simulator.py`)
-/

/-- Python `term in text` (substring containment). -/
def containsTerm (text term : String) : Bool :=
  decide (term.toList <:+: text.toList)

/-- `sum(1 for term in terms if term in content.lower())`. -/
def countTerms (terms : List String) (content : String) : ℕ :=
  (terms.filter (fun t => containsTerm content.toLower t)).length

/-- The positive lexicon of the conclusion heuristic. -/
def positive_terms : List String :=
  ["beneficial", "advantage", "opportunity", "promising", "optimistic"]

/-- The negative lexicon of the conclusion heuristic. -/
def negative_terms : List String :=
  ["concern", "risk", "problem", "challenge", "cautious", "critical"]

/-- The final-position heuristic of the GPT and Grok conclusion paths
(gpt_agent.py lines 313-331, grok_agent.py lines 345-364); the two agents
differ only in the default position. -/
def conclusionPosition (content dflt : String) : String :=
  let pos := countTerms positive_terms content
  let neg := countTerms negative_terms content
  if pos > neg * 2 then "optimistic"
  else if pos > neg then "supportive"
  else if neg > pos * 2 then "critical"
  else if neg > pos then "cautious"
  else dflt

/-- `GPTAgent.generate_conclusion`, success path (gpt_agent.py 303-340),
with the remote completion text as a parameter. -/
def gptConclusionPayload (content name : String) : JVal :=
  .obj [("summary", .str content),
        ("key_takeaways", .arr
          [.str "Important insight from multiple sources",
           .str "Consideration of alternative viewpoints",
           .str "Synthesis of research findings"]),
        ("confidence", .num (9/10)),
        ("final_position", .str (conclusionPosition content "neutral")),
        ("model", .str "gpt-4o"),
        ("agent_name", .str name)]

/-- `GrokAgent.generate_conclusion`, success path (grok_agent.py 338-373). -/
def grokConclusionPayload (content name : String) : JVal :=
  .obj [("summary", .str content),
        ("key_takeaways", .arr
          [.str "Fresh perspective on the problem",
           .str "Challenge to conventional assumptions",
           .str "Synthesis of conflicting viewpoints"]),
        ("confidence", .num (92/100)),
        ("final_position", .str (conclusionPosition content "critical")),
        ("model", .str "llama-3.1-sonar-small-128k-online"),
        ("agent_name", .str name)]

/-- `GPTAgent.generate_conclusion`, exception path (gpt_agent.py 342-351). -/
def gptConclusionErrorPayload (e name : String) : JVal :=
  .obj [("summary",
          .str "I encountered an error while forming a conclusion on this question."),
        ("key_takeaways", .arr [.str ("Error: " ++ e)]),
        ("confidence", .num 0),
        ("final_position", .str "neutral"),
        ("model", .str "gpt-4o"),
        ("agent_name", .str name)]

/-- The templates of `agent_simulator.generate_conclusion`. -/
def conclusion_templates : List String :=
  ["After considering all perspectives, I conclude that {conclusion}.",
   "My final assessment is that {conclusion}.",
   "Taking all factors into account, {conclusion}."]

/-- The conclusion bodies of `agent_simulator.generate_conclusion`. -/
def sim_conclusions : List String :=
  ["this is a multifaceted issue requiring a balanced approach",
   "the evidence points to several promising directions for future work",
   "there are significant trade-offs that need careful consideration",
   "a combination of approaches is likely to yield the best results",
   "further research is needed but current findings suggest preliminary directions"]

/-- The five final positions sampled by the simulator (and allowed by §3). -/
def positions : List String :=
  ["supportive", "cautious", "critical", "neutral", "optimistic"]

/-- `agent_simulator.generate_conclusion`, with the `random.choice` /
`random.uniform` draws modelled by index and value parameters. -/
def simulatorConclusionPayload (ti ci pi : ℕ) (confidence : ℚ) : JVal :=
  .obj [("summary", .str
          ((conclusion_templates.get ⟨ti % 3, Nat.mod_lt ti (by decide)⟩).replace
            "{conclusion}" (sim_conclusions.get ⟨ci % 5, Nat.mod_lt ci (by decide)⟩))),
        ("key_takeaways", .arr [.str "takeaway1", .str "takeaway2", .str "takeaway3"]),
        ("confidence", .num confidence),
        ("final_position", .str (positions.get ⟨pi % 5, Nat.mod_lt pi (by decide)⟩))]

/-- The number of entries of a payload's `key_takeaways` sequence. -/
def keyTakeawaysCount (p : JVal) : Option ℕ :=
  match jfield "key_takeaways" p with
  | some (.arr l) => some l.length
  | _ => none

/-- The payload's `final_position` string. -/
def finalPositionOf (p : JVal) : Option String :=
  match jfield "final_position" p with
  | some (.str s) => some s
  | _ => none

/-- C9 counterexample: the pipeline's failure-placeholder conclusion payload
(agent_manager.py 203-209) — and the GPT agent's own exception payload —
carry a single-entry `key_takeaways`, not an ordered sequence of 3 to 5. -/
theorem conclusion_placeholder_single_takeaway :
    keyTakeawaysCount (errorConclusionPayload "boom" "GPT Assistant") = some 1
    ∧ ¬ (3 ≤ 1 ∧ 1 ≤ 5)
    ∧ keyTakeawaysCount (gptConclusionErrorPayload "boom" "GPT Assistant") = some 1 :=
  ⟨rfl, by decide, rfl⟩

theorem conclusionPosition_mem (content dflt : String) (h : dflt ∈ positions) :
    conclusionPosition content dflt ∈ positions := by
  simp only [conclusionPosition]
  split_ifs <;> first | decide | exact h

/-- C9 (amended): every success-path conclusion payload (GPT, Grok,
simulator) has exactly 3 key takeaways and a final_position from
{supportive, cautious, critical, neutral, optimistic}; the failure paths
(pipeline placeholder and agent exception payloads) instead carry a single
error takeaway with position "neutral". -/
theorem conclusion_payload_shape (content name e : String) (ti ci pi : ℕ) (conf : ℚ) :
    (keyTakeawaysCount (gptConclusionPayload content name) = some 3
      ∧ finalPositionOf (gptConclusionPayload content name) =
          some (conclusionPosition content "neutral")
      ∧ conclusionPosition content "neutral" ∈ positions)
    ∧ (keyTakeawaysCount (grokConclusionPayload content name) = some 3
      ∧ finalPositionOf (grokConclusionPayload content name) =
          some (conclusionPosition content "critical")
      ∧ conclusionPosition content "critical" ∈ positions)
    ∧ (keyTakeawaysCount (simulatorConclusionPayload ti ci pi conf) = some 3
      ∧ ∃ p, finalPositionOf (simulatorConclusionPayload ti ci pi conf) = some p
          ∧ p ∈ positions)
    ∧ (keyTakeawaysCount (errorConclusionPayload e name) = some 1
      ∧ finalPositionOf (errorConclusionPayload e name) = some "neutral")
    ∧ (keyTakeawaysCount (gptConclusionErrorPayload e name) = some 1
      ∧ finalPositionOf (gptConclusionErrorPayload e name) = some "neutral") := by
  refine ⟨⟨rfl, rfl, conclusionPosition_mem content "neutral" (by decide)⟩,
    ⟨rfl, rfl, conclusionPosition_mem content "critical" (by decide)⟩,
    ⟨rfl, ?_⟩, ⟨rfl, rfl⟩, ⟨rfl, rfl⟩⟩
  exact ⟨_, rfl, List.get_mem positions _ _⟩

end Council
